import Mathlib

/-!
Verification development for the vecnopool-payment repository.

The repository is a scheduled payout engine: a cron-driven scheduler
invokes trxManager.transferBalances, which reads miner balances from a
PostgreSQL store (Database), filters the strictly positive ones into a
payment batch, submits the batch through a ledger client (send), and on a
truthy transaction id resets each paid balance.

We embed the decision logic of the three source modules shallowly:
  - src/src/database/index.ts   (Database)
  - src/src/trxs/index.ts       (trxManager)
  - src/index.ts and the unnamed entrypoint variant (scheduler, config)
External effects (SQL, the wasm ledger client) are modelled as explicit
data: the balances relation is a list of rows, the ledger send call is a
function parameter returning an exceptional or normal outcome, and the
cycle is reified as the list of store/ledger events it performs.
-/

namespace VecnoPayment

/-- A row of the balances relation: `SELECT address, available_balance
FROM balances` in src/src/database/index.ts (PoolBalanceRow); the numeric
column is read through BigInt, modelled as Int. -/
structure BalanceRow where
  address : String
  available_balance : Int
deriving Repr, DecidableEq

/-- The record produced by Database.getAllBalancesExcludingPool for each
row: `{ minerId: row.address, address: row.address, balance: BigInt(row.available_balance) }`. -/
structure BalanceEntry where
  minerId : String
  address : String
  balance : Int
deriving Repr, DecidableEq

/-- A payment output pushed by trxManager.transferBalances:
`{ address: address, amount: balance }` (IPaymentOutput). -/
structure PaymentOutput where
  address : String
  amount : Int
deriving Repr, DecidableEq

/-- Database.getAllBalancesExcludingPool, src/src/database/index.ts lines
27-38: the query `SELECT address, available_balance FROM balances WHERE
address != $1` with parameter the literal string "pool", whose rows are
then mapped to BalanceEntry. The SQL WHERE clause is embedded as a filter
over the relation. -/
def getAllBalancesExcludingPool (rows : List BalanceRow) : List BalanceEntry :=
  (rows.filter (fun row => row.address != "pool")).map
    (fun row => { minerId := row.address, address := row.address,
                  balance := row.available_balance })

/-- Database.resetBalanceByAddress, src/src/database/index.ts lines 40-46:
`UPDATE balances SET available_balance = 0 WHERE address = $2`, embedded
as the corresponding transformation of the relation. -/
def resetBalanceByAddress (rows : List BalanceRow) (wallet : String) : List BalanceRow :=
  rows.map (fun row =>
    if row.address == wallet then { row with available_balance := 0 } else row)

/-- The observable store/ledger calls one transferBalances cycle performs,
in order: a ledger submission of the batch (trxManager.send), a balance
reset (Database.resetBalanceByAddress), or a payment-history insert
(Database.recordPayment, src/src/database/index.ts lines 48-58). -/
inductive StoreEvent where
  | sendBatch (outputs : List PaymentOutput)
  | resetBalance (address : String)
  | recordPayment (address : String) (amount : Int) (txId : String)
deriving Repr, DecidableEq

/-- Whether an event is a balance reset. -/
def StoreEvent.isReset : StoreEvent → Bool
  | .resetBalance _ => true
  | _ => false

/-- Whether an event is a payment-history insert. -/
def StoreEvent.isRecord : StoreEvent → Bool
  | .recordPayment _ _ _ => true
  | _ => false

/-- Whether an event is a ledger submission. -/
def StoreEvent.isSend : StoreEvent → Bool
  | .sendBatch _ => true
  | _ => false

/-- Effect of one event on the balances relation: only resetBalance
touches it (sendBatch is a ledger call, recordPayment inserts into the
separate payments relation). -/
def applyEvent (rows : List BalanceRow) : StoreEvent → List BalanceRow
  | .resetBalance a => resetBalanceByAddress rows a
  | _ => rows

/-- Effect of a whole event trace on the balances relation. -/
def applyTrace (rows : List BalanceRow) (trace : List StoreEvent) : List BalanceRow :=
  trace.foldl applyEvent rows

/-- The payment-batch construction loop of trxManager.transferBalances,
src/src/trxs/index.ts lines 37-47: starting from `payments = []`, for
each balance entry with `balance > 0` push `{ address, amount: balance }`. -/
def buildPayments (balances : List BalanceEntry) : List PaymentOutput :=
  balances.foldl
    (fun payments b =>
      if b.balance > 0 then
        payments ++ [{ address := b.address, amount := b.balance }]
      else payments)
    []

/-- Outcome of the awaited trxManager.send call as seen by
transferBalances: `Except.error` when send throws (src/src/trxs/index.ts
lines 99-102 rethrow any failure of createTransactions / sign / submit),
`Except.ok txid` when it resolves, where `txid` is
`summary.finalTransactionId` — an Option since the wasm field may be
undefined. -/
abbrev SendOutcome := Except Unit (Option String)

/-- JavaScript truthiness of the resolved transaction id, as tested by
`if (transactionId)` in transferBalances: undefined and the empty string
are falsy. -/
def truthyTxId : Option String → Bool
  | none => false
  | some s => !(s == "")

/-- The balance-reset loop of trxManager.transferBalances,
src/src/trxs/index.ts lines 60-67: for each snapshot entry with
`balance > 0`, `await this.db.resetBalanceByAddress(address)`.  The await
has no surrounding try/catch, so a failing reset (modelled by
`resetOk address = false`) throws out of the loop: the events already
performed stand, the remaining entries are not visited.  Returns the
events performed and whether the loop completed without throwing. -/
def resetLoop (balances : List BalanceEntry) (resetOk : String → Bool) :
    List StoreEvent × Bool :=
  match balances with
  | [] => ([], true)
  | b :: rest =>
    if b.balance > 0 then
      if resetOk b.address then
        let r := resetLoop rest resetOk
        (StoreEvent.resetBalance b.address :: r.1, r.2)
      else ([], false)
    else resetLoop rest resetOk

/-- trxManager.transferBalances, src/src/trxs/index.ts lines 32-71,
given the snapshot already returned by getAllBalancesExcludingPool, the
behaviour of the ledger send call, and which resets succeed.  Mirrors the
source: build the payment batch; if it is empty, log and return (no
ledger call, no store write); otherwise `await this.send(payments)` — if
that throws the cycle throws with no store write; on a truthy resolved
transaction id run the reset loop, on a falsy one skip the reset.
Returns the event trace and whether the cycle completed without
throwing. -/
def transferBalances (balances : List BalanceEntry)
    (send : List PaymentOutput → SendOutcome)
    (resetOk : String → Bool) : List StoreEvent × Bool :=
  let payments := buildPayments balances
  if payments.length == 0 then
    ([], true)
  else
    match send payments with
    | .error _ => ([StoreEvent.sendBatch payments], false)
    | .ok txid =>
      if truthyTxId txid then
        let r := resetLoop balances resetOk
        (StoreEvent.sendBatch payments :: r.1, r.2)
      else ([StoreEvent.sendBatch payments], true)

/-- JavaScript defaulting `config.paymentInterval || d`: the value is
replaced by the default when the config key is absent (undefined) or 0,
both falsy; any other number, negative included, is kept. -/
def configIntervalOr (cfg : Option Int) (dflt : Int) : Int :=
  match cfg with
  | none => dflt
  | some v => if v == 0 then dflt else v

/-- src/index.ts lines 50-51: `const paymentInterval =
config.paymentInterval || 2;` — the cadence of the main entrypoint, in
hours. -/
def paymentIntervalHours (cfg : Option Int) : Int :=
  configIntervalOr cfg 2

/-- src/index.ts lines 51-55: startup throws when
`paymentInterval < 1 || paymentInterval > 24`. -/
def startupThrowsHours (cfg : Option Int) : Bool :=
  paymentIntervalHours cfg < 1 || paymentIntervalHours cfg > 24

/-- Unnamed entrypoint variant lines 50-51: `const paymentInterval =
config.paymentInterval || 30;` — the cadence of the variant entrypoint,
in minutes. -/
def paymentIntervalMinutes (cfg : Option Int) : Int :=
  configIntervalOr cfg 30

/-- Unnamed entrypoint variant lines 51-54: startup throws when
`paymentInterval < 5 || paymentInterval > 1440`. -/
def startupThrowsMinutes (cfg : Option Int) : Bool :=
  paymentIntervalMinutes cfg < 5 || paymentIntervalMinutes cfg > 1440

/-- src/index.ts line 120: `const isPaymentTime = minutes === 0 &&
(hours % paymentInterval === 0);` — the fire condition of the main
entrypoint, evaluated on each tick of its 10-minute cron. -/
def isPaymentTime (paymentInterval minutes hours : Nat) : Bool :=
  minutes == 0 && hours % paymentInterval == 0

/-- Whether the cron callback of src/index.ts lines 114-137 invokes
transactionManager.transferBalances on a tick.  The source consults only
the current time and the rpcConnected flag: the module keeps no
cycle-in-progress state, so the `cycleInProgress` argument — the fact the
concurrency claim quantifies over — cannot and does not influence the
result. -/
def cronTickRunsTransfer (paymentInterval minutes hours : Nat)
    (rpcConnected : Bool) (cycleInProgress : Bool) : Bool :=
  isPaymentTime paymentInterval minutes hours && rpcConnected

/-- Fire predicate of the cron expression `0 */p * * * *` built by the
unnamed entrypoint variant (second 0, minute step p, every hour/day):
under standard cron step semantics as implemented by node-cron, the
schedule matches a wall-clock instant iff its second is 0 and its minute
within the hour is divisible by p. -/
def cronFires (p second minute : Nat) : Bool :=
  second == 0 && minute % p == 0

/-- The push-loop of buildPayments, generalized over the accumulator. -/
theorem buildPayments_go (balances : List BalanceEntry) (acc : List PaymentOutput) :
    balances.foldl
      (fun payments b =>
        if b.balance > 0 then
          payments ++ [{ address := b.address, amount := b.balance }]
        else payments)
      acc
    = acc ++ balances.filterMap (fun b =>
        if b.balance > 0 then
          some { address := b.address, amount := b.balance }
        else none) := by
  induction balances generalizing acc with
  | nil => simp
  | cons b rest ih =>
    by_cases h : b.balance > 0 <;>
      simp [List.foldl_cons, List.filterMap_cons, h, ih]

/-- buildPayments emits, in snapshot order, one output per strictly
positive entry. -/
theorem buildPayments_eq (balances : List BalanceEntry) :
    buildPayments balances
      = balances.filterMap (fun b =>
          if b.balance > 0 then
            some { address := b.address, amount := b.balance }
          else none) := by
  simpa using buildPayments_go balances []

/-- buildPayments as a filter followed by a map. -/
theorem buildPayments_eq_filter_map (balances : List BalanceEntry) :
    buildPayments balances
      = (balances.filter (fun b => b.balance > 0)).map
          (fun b => { address := b.address, amount := b.balance }) := by
  rw [buildPayments_eq]
  induction balances with
  | nil => rfl
  | cons b rest ih =>
    by_cases h : b.balance > 0 <;>
      simp [List.filterMap_cons, List.filter_cons, h, ih]

/-- When every reset succeeds, the reset loop performs exactly one reset
per strictly positive entry, in snapshot order, and completes. -/
theorem resetLoop_all_ok (balances : List BalanceEntry) (resetOk : String → Bool)
    (hreset : ∀ a, resetOk a = true) :
    resetLoop balances resetOk
      = ((balances.filter (fun b => b.balance > 0)).map
          (fun b => StoreEvent.resetBalance b.address), true) := by
  induction balances with
  | nil => rfl
  | cons b rest ih =>
    by_cases h : b.balance > 0 <;>
      simp [resetLoop, List.filter_cons, h, hreset, ih]

/-- When the first failing reset is at entry `b`, the reset loop keeps
the resets of the positive entries before `b`, performs none at or after
`b`, and throws. -/
theorem resetLoop_fails_at (pre : List BalanceEntry) (b : BalanceEntry)
    (post : List BalanceEntry) (resetOk : String → Bool)
    (hpre : ∀ x ∈ pre, x.balance > 0 → resetOk x.address = true)
    (hb : b.balance > 0) (hfail : resetOk b.address = false) :
    resetLoop (pre ++ b :: post) resetOk
      = ((pre.filter (fun x => x.balance > 0)).map
          (fun x => StoreEvent.resetBalance x.address), false) := by
  induction pre with
  | nil => simp [resetLoop, hb, hfail]
  | cons x rest ih =>
    have hrest : ∀ y ∈ rest, y.balance > 0 → resetOk y.address = true :=
      fun y hy => hpre y (List.mem_cons_of_mem x hy)
    by_cases h : x.balance > 0
    · simp [resetLoop, List.filter_cons, h, hpre x (List.mem_cons_self x rest) h,
        ih hrest]
    · simp [resetLoop, List.filter_cons, h, ih hrest]

/-- Unfolding of transferBalances on the success path: nonempty batch,
send resolves, truthy transaction id. -/
theorem transferBalances_success (balances : List BalanceEntry)
    (send : List PaymentOutput → SendOutcome) (resetOk : String → Bool)
    (txid : Option String)
    (hne : buildPayments balances ≠ [])
    (hsend : send (buildPayments balances) = .ok txid)
    (htruthy : truthyTxId txid = true) :
    transferBalances balances send resetOk
      = (StoreEvent.sendBatch (buildPayments balances)
          :: (resetLoop balances resetOk).1,
         (resetLoop balances resetOk).2) := by
  have h0 : ((buildPayments balances).length == 0) = false := by
    simp [List.length_eq_zero, hne]
  simp [transferBalances, h0, hsend, htruthy]

/-- The snapshot of the spec scenario: addresses A, B, C with balances
500, 0, 1200. -/
def scenarioBalances : List BalanceEntry :=
  [{ minerId := "A", address := "A", balance := 500 },
   { minerId := "B", address := "B", balance := 0 },
   { minerId := "C", address := "C", balance := 1200 }]

/-- A send behaviour that resolves with final transaction id T1. -/
def sendT1 : List PaymentOutput → SendOutcome :=
  fun _ => Except.ok (some "T1")

/-- A sample state of the balances relation. -/
def sampleRows : List BalanceRow :=
  [{ address := "A", available_balance := 500 },
   { address := "pool", available_balance := 9 }]

/-- C3: for every balance snapshot, the batcher output is exactly the
subsequence of records with strictly positive balance, in snapshot
order, each with its snapshot amount; no output has amount ≤ 0; under
the one-record-per-address data-model invariant each address appears at
most once; and the output amounts sum to the sum of the strictly
positive balances of the snapshot. -/
theorem batcher_exactly_positive_subsequence (balances : List BalanceEntry)
    (hnodup : (balances.map (fun b => b.address)).Nodup) :
    buildPayments balances
      = balances.filterMap (fun b =>
          if b.balance > 0 then
            some { address := b.address, amount := b.balance }
          else none)
    ∧ (∀ p ∈ buildPayments balances, p.amount > 0)
    ∧ ((buildPayments balances).map (fun p => p.address)).Nodup
    ∧ ((buildPayments balances).map (fun p => p.amount)).sum
        = ((balances.filter (fun b => b.balance > 0)).map (fun b => b.balance)).sum := by
  refine ⟨buildPayments_eq balances, ?_, ?_, ?_⟩
  · intro p hp
    rw [buildPayments_eq_filter_map] at hp
    simp only [List.mem_map, List.mem_filter] at hp
    obtain ⟨b, ⟨_, hpos⟩, rfl⟩ := hp
    simpa using hpos
  · rw [buildPayments_eq_filter_map, List.map_map]
    have hsub : ((balances.filter (fun b => b.balance > 0)).map
          (fun b => b.address)).Sublist (balances.map (fun b => b.address)) :=
      (List.filter_sublist balances).map (fun b => b.address)
    exact List.Nodup.sublist hsub hnodup
  · rw [buildPayments_eq_filter_map, List.map_map]
    rfl

/-- Witness for C3 at the spec-scenario snapshot. -/
theorem batcher_exactly_positive_subsequence_witness :
    (scenarioBalances.map (fun b => b.address)).Nodup
    ∧ (∀ p ∈ buildPayments scenarioBalances, p.amount > 0) :=
  ⟨by decide,
   (batcher_exactly_positive_subsequence scenarioBalances (by decide)).2.1⟩

/-- C4: when every balance of the snapshot is non-positive, the batch is
empty and transferBalances returns at once: the event trace is empty (no
ledger send, no reset, no payment record) and the cycle completes
without throwing. -/
theorem empty_batch_noop (balances : List BalanceEntry)
    (send : List PaymentOutput → SendOutcome) (resetOk : String → Bool)
    (h : ∀ b ∈ balances, b.balance ≤ 0) :
    transferBalances balances send resetOk = ([], true) := by
  have hfilter : balances.filter (fun b => b.balance > 0) = [] :=
    List.filter_eq_nil_iff.mpr (fun b hb => by simpa using not_lt.mpr (h b hb))
  have hpay : buildPayments balances = [] := by
    rw [buildPayments_eq_filter_map, hfilter]
    rfl
  simp [transferBalances, hpay]

/-- Witness for C4 at a snapshot of a zero and a negative balance, with
a send behaviour that would throw if it were ever consulted. -/
theorem empty_batch_noop_witness :
    (∀ b ∈ ([{ minerId := "A", address := "A", balance := 0 },
             { minerId := "D", address := "D", balance := -5 }] : List BalanceEntry),
        b.balance ≤ 0)
    ∧ transferBalances
        [{ minerId := "A", address := "A", balance := 0 },
         { minerId := "D", address := "D", balance := -5 }]
        (fun _ => Except.error ()) (fun _ => true) = ([], true) :=
  ⟨by decide, empty_batch_noop _ _ _ (by decide)⟩

/-- C2: when the awaited send call throws, transferBalances rethrows
before reaching the reset loop: the trace holds the ledger submission
only — no resetBalance and no recordPayment event — and the balances
relation is left exactly as it was. -/
theorem send_throws_no_store_write (balances : List BalanceEntry)
    (send : List PaymentOutput → SendOutcome) (resetOk : String → Bool)
    (rows : List BalanceRow)
    (hne : buildPayments balances ≠ [])
    (hsend : send (buildPayments balances) = .error ()) :
    (transferBalances balances send resetOk).1
      = [StoreEvent.sendBatch (buildPayments balances)]
    ∧ (∀ e ∈ (transferBalances balances send resetOk).1,
        e.isReset = false ∧ e.isRecord = false)
    ∧ applyTrace rows (transferBalances balances send resetOk).1 = rows := by
  have h0 : ((buildPayments balances).length == 0) = false := by
    simp [List.length_eq_zero, hne]
  have htr : transferBalances balances send resetOk
      = ([StoreEvent.sendBatch (buildPayments balances)], false) := by
    simp [transferBalances, h0, hsend]
  refine ⟨by rw [htr], ?_, by rw [htr]; rfl⟩
  rw [htr]
  intro e he
  simp only [List.mem_singleton] at he
  subst he
  exact ⟨rfl, rfl⟩

/-- Witness for C2 at the spec-scenario snapshot with a throwing send. -/
theorem send_throws_no_store_write_witness :
    (buildPayments scenarioBalances ≠ []
      ∧ (fun _ : List PaymentOutput => (Except.error () : SendOutcome))
          (buildPayments scenarioBalances) = Except.error ())
    ∧ applyTrace sampleRows
        (transferBalances scenarioBalances (fun _ => Except.error ())
          (fun _ => true)).1 = sampleRows :=
  ⟨⟨by decide, rfl⟩,
   (send_throws_no_store_write scenarioBalances (fun _ => Except.error ())
      (fun _ => true) sampleRows (by decide) rfl).2.2⟩

/-- C10: resets are gated on JavaScript truthiness of the resolved
transaction id — undefined and the empty string are falsy — so a send
that resolves with a falsy final transaction id after broadcasting its
transactions leaves every balance unreset: the trace holds only the
ledger submission, the cycle completes without throwing, and the
balances relation is unchanged (the amounts stay payable next cycle). -/
theorem falsy_txid_skips_reset (balances : List BalanceEntry)
    (send : List PaymentOutput → SendOutcome) (resetOk : String → Bool)
    (txid : Option String) (rows : List BalanceRow)
    (hne : buildPayments balances ≠ [])
    (hsend : send (buildPayments balances) = .ok txid)
    (hfalsy : truthyTxId txid = false) :
    truthyTxId none = false
    ∧ truthyTxId (some "") = false
    ∧ (transferBalances balances send resetOk).1
        = [StoreEvent.sendBatch (buildPayments balances)]
    ∧ (transferBalances balances send resetOk).2 = true
    ∧ applyTrace rows (transferBalances balances send resetOk).1 = rows := by
  have h0 : ((buildPayments balances).length == 0) = false := by
    simp [List.length_eq_zero, hne]
  have htr : transferBalances balances send resetOk
      = ([StoreEvent.sendBatch (buildPayments balances)], true) := by
    simp [transferBalances, h0, hsend, hfalsy]
  exact ⟨rfl, rfl, by rw [htr], by rw [htr], by rw [htr]; rfl⟩

/-- Witness for C10 at the spec-scenario snapshot with a send resolving
an undefined final transaction id. -/
theorem falsy_txid_skips_reset_witness :
    (buildPayments scenarioBalances ≠ []
      ∧ truthyTxId none = false)
    ∧ (transferBalances scenarioBalances (fun _ => Except.ok none)
        (fun _ => true)).2 = true :=
  ⟨⟨by decide, rfl⟩,
   (falsy_txid_skips_reset scenarioBalances (fun _ => Except.ok none)
      (fun _ => true) none sampleRows (by decide) rfl rfl).2.2.2.1⟩

/-- C1 counterexample: on the spec-scenario snapshot, send resolving
T1 and every reset succeeding, the cycle completes and resets A and C,
but the trace holds no recordPayment event at all — in particular not
the recordPayment(A, 500, T1) the claim requires — because
transferBalances never calls Database.recordPayment. -/
theorem success_cycle_records_payment_counterexample :
    (transferBalances scenarioBalances sendT1 (fun _ => true)).2 = true
    ∧ (transferBalances scenarioBalances sendT1 (fun _ => true)).1
        = [StoreEvent.sendBatch
             [{ address := "A", amount := 500 }, { address := "C", amount := 1200 }],
           StoreEvent.resetBalance "A", StoreEvent.resetBalance "C"]
    ∧ StoreEvent.recordPayment "A" 500 "T1"
        ∉ (transferBalances scenarioBalances sendT1 (fun _ => true)).1
    ∧ ((transferBalances scenarioBalances sendT1 (fun _ => true)).1.filter
        StoreEvent.isRecord) = [] := by
  decide

/-- C1 amended: on a successful cycle with a truthy transaction id and
every reset succeeding, the trace is the ledger submission followed by
resetBalance for each address with strictly positive snapshot balance,
in snapshot order — and nothing else: no recordPayment event occurs, so
no payment-history record is written. -/
theorem success_cycle_resets_without_recording (balances : List BalanceEntry)
    (send : List PaymentOutput → SendOutcome) (resetOk : String → Bool)
    (txid : Option String)
    (hne : buildPayments balances ≠ [])
    (hsend : send (buildPayments balances) = .ok txid)
    (htruthy : truthyTxId txid = true)
    (hreset : ∀ a, resetOk a = true) :
    (transferBalances balances send resetOk).1
      = StoreEvent.sendBatch (buildPayments balances)
          :: (balances.filter (fun b => b.balance > 0)).map
               (fun b => StoreEvent.resetBalance b.address)
    ∧ (transferBalances balances send resetOk).2 = true
    ∧ ∀ e ∈ (transferBalances balances send resetOk).1, e.isRecord = false := by
  have htr := transferBalances_success balances send resetOk txid hne hsend htruthy
  have hloop := resetLoop_all_ok balances resetOk hreset
  refine ⟨by rw [htr, hloop], by rw [htr, hloop], ?_⟩
  rw [htr, hloop]
  intro e he
  simp only [List.mem_cons, List.mem_map, List.mem_filter] at he
  rcases he with rfl | ⟨b, _, rfl⟩ <;> rfl

/-- Witness for the amended C1 at the spec-scenario snapshot. -/
theorem success_cycle_resets_without_recording_witness :
    (buildPayments scenarioBalances ≠ []
      ∧ sendT1 (buildPayments scenarioBalances) = Except.ok (some "T1")
      ∧ truthyTxId (some "T1") = true
      ∧ ∀ a : String, (fun _ => true) a = true)
    ∧ (transferBalances scenarioBalances sendT1 (fun _ => true)).1
        = StoreEvent.sendBatch (buildPayments scenarioBalances)
            :: (scenarioBalances.filter (fun b => b.balance > 0)).map
                 (fun b => StoreEvent.resetBalance b.address) :=
  ⟨⟨by decide, rfl, by decide, fun _ => rfl⟩,
   (success_cycle_resets_without_recording scenarioBalances sendT1
      (fun _ => true) (some "T1") (by decide) rfl (by decide) (fun _ => rfl)).1⟩

/-- The snapshot for the C5 counterexample: two positive balances. -/
def twoPositiveBalances : List BalanceEntry :=
  [{ minerId := "A", address := "A", balance := 1 },
   { minerId := "B", address := "B", balance := 1 }]

/-- A reset behaviour whose write for address A throws. -/
def resetFailsOnA : String → Bool := fun a => a != "A"

/-- C5 counterexample: on a snapshot with positive balances for A and B,
send resolving T1, and the reset write for A throwing, address B never
receives its reset and the cycle throws — the await in the reset loop
has no try/catch, so a per-address store failure aborts the remaining
addresses and fails the cycle instead of being logged and skipped. -/
theorem reset_failure_spares_rest_counterexample :
    (transferBalances twoPositiveBalances sendT1 resetFailsOnA).2 = false
    ∧ StoreEvent.resetBalance "B"
        ∉ (transferBalances twoPositiveBalances sendT1 resetFailsOnA).1
    ∧ (transferBalances twoPositiveBalances sendT1 resetFailsOnA).1
        = [StoreEvent.sendBatch
             [{ address := "A", amount := 1 }, { address := "B", amount := 1 }]] := by
  decide

/-- C5 amended: after a successful submission, if the reset write for
one address throws, the exception propagates out of transferBalances:
addresses before it in the snapshot keep their resets, the failing
address and every later one get no reset (and no recordPayment is ever
written), and the cycle fails — the error is caught only by the
catch in the scheduler callback, which logs it and keeps ticking. -/
theorem reset_failure_aborts_rest (pre : List BalanceEntry) (b : BalanceEntry)
    (post : List BalanceEntry) (send : List PaymentOutput → SendOutcome)
    (resetOk : String → Bool) (txid : Option String)
    (hpre : ∀ x ∈ pre, x.balance > 0 → resetOk x.address = true)
    (hb : b.balance > 0) (hfail : resetOk b.address = false)
    (hsend : send (buildPayments (pre ++ b :: post)) = .ok txid)
    (htruthy : truthyTxId txid = true) :
    (transferBalances (pre ++ b :: post) send resetOk).1
      = StoreEvent.sendBatch (buildPayments (pre ++ b :: post))
          :: (pre.filter (fun x => x.balance > 0)).map
               (fun x => StoreEvent.resetBalance x.address)
    ∧ (transferBalances (pre ++ b :: post) send resetOk).2 = false := by
  have hne : buildPayments (pre ++ b :: post) ≠ [] := by
    rw [buildPayments_eq_filter_map]
    simp [List.filter_append, List.filter_cons, hb]
  have htr := transferBalances_success (pre ++ b :: post) send resetOk txid
    hne hsend htruthy
  have hloop := resetLoop_fails_at pre b post resetOk hpre hb hfail
  exact ⟨by rw [htr, hloop], by rw [htr, hloop]⟩

/-- Witness for the amended C5: A resets, the write for B throws, C is
left unreset. -/
theorem reset_failure_aborts_rest_witness :
    ((∀ x ∈ ([{ minerId := "A", address := "A", balance := 1 }] : List BalanceEntry),
        x.balance > 0 → (fun a => a != "B") x.address = true)
      ∧ (1 : Int) > 0
      ∧ (fun a => a != "B") "B" = false
      ∧ truthyTxId (some "T1") = true)
    ∧ (transferBalances
          ([{ minerId := "A", address := "A", balance := 1 }]
            ++ { minerId := "B", address := "B", balance := 1 }
            :: [{ minerId := "C", address := "C", balance := 1 }])
          sendT1 (fun a => a != "B")).2 = false :=
  ⟨⟨by decide, by decide, by decide, by decide⟩,
   (reset_failure_aborts_rest
      [{ minerId := "A", address := "A", balance := 1 }]
      { minerId := "B", address := "B", balance := 1 }
      [{ minerId := "C", address := "C", balance := 1 }]
      sendT1 (fun a => a != "B") (some "T1")
      (by decide) (by decide) (by decide) rfl (by decide)).2⟩

/-- C6 counterexample: at hour 0, minute 0, with RPC connected and a
prior cycle still in progress, the cron callback of the main entrypoint
(paymentInterval 2) still invokes transferBalances — the overlapping
trigger is not dropped. -/
theorem overlapping_trigger_dropped_counterexample :
    cronTickRunsTransfer 2 0 0 true true = true := by
  decide

/-- C6 amended: the scheduler has no reentrancy guard — the cron
callback consults only the wall-clock time and the rpcConnected flag,
so whether a prior cycle is still in progress never changes its
decision, and any trigger at a payment time with RPC connected invokes
transferBalances even while a prior cycle is in flight. -/
theorem scheduler_has_no_reentrancy_guard (paymentInterval minutes hours : Nat)
    (rpcConnected inProgress inProgressOther : Bool) :
    cronTickRunsTransfer paymentInterval minutes hours rpcConnected inProgress
      = cronTickRunsTransfer paymentInterval minutes hours rpcConnected inProgressOther
    ∧ cronTickRunsTransfer paymentInterval minutes hours rpcConnected true
        = (isPaymentTime paymentInterval minutes hours && rpcConnected) :=
  ⟨rfl, rfl⟩

/-- C7 counterexample: the main entrypoint defaults an absent cadence to
2 (hours), not 30, and throws at a configured value of 25 even though 25
lies inside 5..1440; the variant entrypoint accepts a configured 0 —
outside 5..1440 — by silently defaulting it to 30. -/
theorem cadence_minutes_default_counterexample :
    paymentIntervalHours none = 2
    ∧ startupThrowsHours (some 25) = true
    ∧ startupThrowsMinutes (some 0) = false := by
  decide

/-- C7 amended: the main entrypoint expresses the cadence in hours,
defaulting to 2 when the key is absent or 0, and startup throws exactly
when a nonzero configured value lies outside 1..24; the variant
entrypoint expresses it in minutes, defaulting to 30 when absent or 0,
and throws exactly when a nonzero configured value lies outside
5..1440. -/
theorem cadence_validation (cfg : Option Int) :
    paymentIntervalHours none = 2
    ∧ paymentIntervalMinutes none = 30
    ∧ (startupThrowsHours cfg = true
        ↔ ∃ v, cfg = some v ∧ v ≠ 0 ∧ (v < 1 ∨ 24 < v))
    ∧ (startupThrowsMinutes cfg = true
        ↔ ∃ v, cfg = some v ∧ v ≠ 0 ∧ (v < 5 ∨ 1440 < v)) := by
  refine ⟨rfl, rfl, ?_, ?_⟩ <;>
  · cases cfg with
    | none =>
      simp [startupThrowsHours, startupThrowsMinutes,
        paymentIntervalHours, paymentIntervalMinutes, configIntervalOr]
    | some v =>
      by_cases hv : v = 0 <;>
        simp [startupThrowsHours, startupThrowsMinutes,
          paymentIntervalHours, paymentIntervalMinutes, configIntervalOr, hv]

/-- C8: with the variant entrypoint configured to a 30-minute cadence,
its cron schedule fires at second 0 of minute 0 and of minute 30 of
each hour and never at minute 15; and at second 0, for every wall-clock
time, it fires iff the total minute count since midnight is an exact
multiple of the cadence. -/
theorem cadence30_fires_on_half_hours (hour minute : Nat) :
    cronFires 30 0 0 = true
    ∧ cronFires 30 0 30 = true
    ∧ cronFires 30 0 15 = false
    ∧ (cronFires 30 0 minute = true ↔ (60 * hour + minute) % 30 = 0) := by
  refine ⟨rfl, rfl, rfl, ?_⟩
  have hmod : (60 * hour + minute) % 30 = minute % 30 := by omega
  rw [hmod]
  simp [cronFires]

/-- Balances relation for the C9 counterexample: the derived pool
treasury address stands alongside the literal row pool and a miner
row. -/
def treasuryRows : List BalanceRow :=
  [{ address := "vecno:qqtreasury", available_balance := 7 },
   { address := "pool", available_balance := 9 },
   { address := "vecno:qqminer1", available_balance := 100 }]

/-- C9 counterexample: taking the pool treasury address derived from
the private key to be vecno:qqtreasury, the snapshot returned by
getAllBalancesExcludingPool still contains that address — the query
excludes only the literal address pool, never the derived one. -/
theorem snapshot_excludes_treasury_counterexample :
    "vecno:qqtreasury"
      ∈ (getAllBalancesExcludingPool treasuryRows).map (fun e => e.address)
    ∧ "pool" ∉ (getAllBalancesExcludingPool treasuryRows).map (fun e => e.address) := by
  decide

/-- C9 amended: getAllBalancesExcludingPool returns exactly the rows of
the balances relation whose address differs from the literal string
pool, keeping each amount; the derived treasury address appears in the
snapshot whenever its row does, unless it equals that literal. -/
theorem snapshot_excludes_literal_pool (rows : List BalanceRow) (a : String) :
    (a ∈ (getAllBalancesExcludingPool rows).map (fun e => e.address)
      ↔ (a ∈ rows.map (fun r => r.address) ∧ a ≠ "pool"))
    ∧ (getAllBalancesExcludingPool rows).map (fun e => (e.address, e.balance))
        = (rows.filter (fun r => r.address != "pool")).map
            (fun r => (r.address, r.available_balance)) := by
  have hmap : (getAllBalancesExcludingPool rows).map (fun e => e.address)
      = (rows.filter (fun r => r.address != "pool")).map (fun r => r.address) := by
    simp [getAllBalancesExcludingPool, List.map_map]
  constructor
  · rw [hmap]
    simp only [List.mem_map, List.mem_filter]
    constructor
    · rintro ⟨r, ⟨hr, hne⟩, rfl⟩
      exact ⟨⟨r, hr, rfl⟩, by simpa using hne⟩
    · rintro ⟨⟨r, hr, rfl⟩, hne⟩
      exact ⟨r, ⟨hr, by simpa using hne⟩, rfl⟩
  · simp [getAllBalancesExcludingPool, List.map_map]

end VecnoPayment
